/-
  Verification of the PSF metrics module (`prysm/psf.py`).

  Shallow embedding conventions:
  * Python/NumPy floats are modelled as exact rationals (`ℚ`); the float
    constants `np.e` and `np.pi` are modelled by the exact rational value of
    the IEEE-754 double that NumPy stores for them.
  * NumPy 2D arrays are `List (List ℚ)` (row-major); boolean masks are
    `List (List Bool)`.
  * Fallible Python code (exceptions) is modelled with `Except PyErr`.
  * Collaborators that live outside `psf.py` (`uniform_cart_to_polar`,
    `mtf_from_psf`, `scipy.ndimage.center_of_mass`, `np.sqrt`, `special.j1`)
    are either factored out as explicit inputs (the polar decomposition, the
    MTF grid, `sqrt`/`j1` function parameters) or modelled from the spec's
    collaborator contracts, as marked in the doc comments.
-/
import Mathlib

namespace Psf

/-- Python exception outcomes that the embedded code can raise. -/
inductive PyErr where
  | attributeError
  | typeError
  | indexError
  | valueError (msg : String)
  deriving DecidableEq, Repr

instance {ε α : Type} [DecidableEq ε] [DecidableEq α] : DecidableEq (Except ε α) := fun a b =>
  match a, b with
  | .ok x, .ok y =>
      if h : x = y then .isTrue (by rw [h]) else .isFalse (fun hh => h (Except.ok.inj hh))
  | .error x, .error y =>
      if h : x = y then .isTrue (by rw [h]) else .isFalse (fun hh => h (Except.error.inj hh))
  | .ok _, .error _ => .isFalse (fun hh => Except.noConfusion hh)
  | .error _, .ok _ => .isFalse (fun hh => Except.noConfusion hh)

/-- A Python value that is either a string or a number (the `metric`
argument of `estimate_size` accepts both). -/
inductive PyVal where
  | str (s : String)
  | num (q : ℚ)
  deriving DecidableEq, Repr

/-- The exact rational value of the IEEE-754 double `np.e`. -/
def npE : ℚ := 6121026514868073 / 2251799813685248

/-- The exact rational value of the IEEE-754 double `np.pi`. -/
def npPi : ℚ := 884279719003555 / 281474976710656

/-- ASCII lower-casing of one character (the fragment of Python's
`str.lower` relevant to the ASCII metric/criteria strings). -/
def pyLowerChar (c : Char) : Char :=
  if 'A' ≤ c ∧ c ≤ 'Z' then Char.ofNat (c.toNat + 32) else c

/-- Python `s.lower()` on a string. -/
def pyLower (s : String) : String := ⟨s.data.map pyLowerChar⟩

/-- `metric.lower()`: succeeds (lower-casing) on a string, raises
`AttributeError` on a number — Python floats have no `.lower` attribute. -/
def pyLowerMetric : PyVal → Except PyErr String
  | .str s => .ok (pyLower s)
  | .num _ => .error .attributeError

/-- `polar.max()`: NumPy max over all elements; raises `ValueError` on a
zero-size array. -/
def polarMax (polar : List (List ℚ)) : Except PyErr ℚ :=
  match polar.flatten with
  | [] => .error (.valueError "zero-size array to reduction operation maximum")
  | x :: xs => .ok (xs.foldl max x)

/-- The `hm` threshold dispatch of `estimate_size`, applied to the lowered
metric string.  The source also has an `elif isinstance(metric,
numbers.Number)` arm (`hm = metric`), but it is unreachable: a numeric
metric already raised `AttributeError` at `metric.lower()`, and after
lowering `metric` is always a string. -/
def hmOf (s : String) (mx : ℚ) : Except PyErr ℚ :=
  if s = "fwhm" then .ok (mx / 2)
  else if s = "1/e" then .ok (1 / npE * mx)
  else if s = "1/e^2" then .ok (1 / npE ^ 2 * mx)
  else .error (.valueError "unknown metric, use fwhm, 1/e, or 1/e^2")

/-- `mask = polar > hm`, elementwise. -/
def maskOf (polar : List (List ℚ)) (hm : ℚ) : List (List Bool) :=
  polar.map (fun row => row.map (fun v => decide (hm < v)))

/-- Index of the first `true` in a boolean list, if any. -/
def firstTrueIdx : List Bool → Option Nat
  | [] => none
  | b :: t => if b then some 0 else (firstTrueIdx t).map (· + 1)

/-- `np.argmax` of a boolean 1D array: index of the first `true`, and `0`
when every entry is `false` (the first occurrence of the maximum). -/
def npArgmaxBool (row : List Bool) : Nat :=
  (firstTrueIdx row).getD 0

/-- `np.argmax(mask, axis=1)`: per-row argmax; NumPy raises `ValueError`
when the reduced axis is empty. -/
def npArgmaxAxis1 (mask : List (List Bool)) : Except PyErr (List Nat) :=
  if mask.any List.isEmpty then
    .error (.valueError "attempt to get argmax of an empty sequence")
  else .ok (mask.map npArgmaxBool)

/-- `.mean()` of a 1D integer array, as a real (here rational) number. -/
def meanOfNats (l : List Nat) : ℚ :=
  (l.map (fun n => (Nat.cast n : ℚ))).sum / l.length

/-- NumPy 1D integer indexing `r[i]`: negative indices wrap from the end;
out-of-range indices raise `IndexError`. -/
def npGet (l : List ℚ) (i : ℤ) : Except PyErr ℚ :=
  let j := if i < 0 then i + l.length else i
  if 0 ≤ j ∧ j < l.length then .ok (l.getD j.toNat 0) else .error .indexError

/-- The `criteria` branch of `estimate_size` (source lines 74–88): averages
the per-row `np.argmax(..., axis=1)` indices of the boolean mask (scanning
reversed rows for `'last'`, then converting via `mask.shape[1] - meanidx`),
splits the mean index with `divmod(meanidx, 1)` into whole part `lowidx`
and fractional `remainder` (negated for `'last'`), and returns
`r[lowidx] + remainder * r[1]`. -/
def esFromMask (r : List ℚ) (mask : List (List Bool)) (c : String) : Except PyErr ℚ :=
  if c = "first" then
    match npArgmaxAxis1 mask with
    | .error e => .error e
    | .ok idxs =>
      let meanidx := meanOfNats idxs
      match npGet r ⌊meanidx⌋ with
      | .error e => .error e
      | .ok rl =>
        match npGet r 1 with
        | .error e => .error e
        | .ok r1 => .ok (rl + (meanidx - ⌊meanidx⌋) * r1)
  else if c = "last" then
    match npArgmaxAxis1 (mask.map List.reverse) with
    | .error e => .error e
    | .ok idxs =>
      let meanidx := ((mask.headD []).length : ℚ) - meanOfNats idxs
      match npGet r ⌊meanidx⌋ with
      | .error e => .error e
      | .ok rl =>
        match npGet r 1 with
        | .error e => .error e
        | .ok r1 => .ok (rl + (-(meanidx - ⌊meanidx⌋)) * r1)
  else .error (.valueError "unknown criteria, use first or last")

/-- `estimate_size(x, y, data, metric, criteria)` with the
`uniform_cart_to_polar` collaborator factored out as its output.

Modelled from the spec: `uniform_cart_to_polar(x, y, data) -> (r, p, polar)`
is an external collaborator (it lives in `prysm/coordinates.py`, which is
not part of this source tree); per the spec it is a pure function returning
`r` (ascending unique radii), `p` (angles) and `polar` with `polar[i][j]`
the value at `(r[i], p[j])`.  We therefore take `r` and `polar` directly as
inputs; everything after that call is translated from the source:
`criteria.lower()`, `metric.lower()`, `polar.max()`, the `hm` dispatch,
`mask = polar > hm` and the criteria branch. -/
def estimate_size_polar (r : List ℚ) (polar : List (List ℚ))
    (metric : PyVal) (criteria : String) : Except PyErr ℚ :=
  let c := pyLower criteria
  match pyLowerMetric metric with
  | .error e => .error e
  | .ok s =>
    match polarMax polar with
    | .error e => .error e
    | .ok mx =>
      match hmOf s mx with
      | .error e => .error e
      | .ok hm => esFromMask r (maskOf polar hm) c

/-- The averaged index the source computes for `criteria='first'`:
`np.argmax(mask, axis=1).mean()` — per ROW (radius, under the spec's
collaborator contract) argmax, averaged. -/
def meanidxFirst (mask : List (List Bool)) : ℚ :=
  meanOfNats (mask.map npArgmaxBool)

/-- The averaged index the source computes for `criteria='last'`:
`mask.shape[1] - np.argmax(mask[:, ::-1], axis=1).mean()`. -/
def meanidxLast (mask : List (List Bool)) : ℚ :=
  ((mask.headD []).length : ℚ) - meanOfNats ((mask.map List.reverse).map npArgmaxBool)

/-- Column `j` of a boolean mask (out-of-range entries read as `false`). -/
def colOf (mask : List (List Bool)) (j : Nat) : List Bool :=
  mask.map (fun row => row.getD j false)

/-- The averaged quantity as claim C5 words it: for each ANGLE (column,
under the spec's collaborator contract), the index of the first radius
(row) at which the mask is true (0 when there is no crossing), averaged
across all angles.  Stated from the claim's words, to be compared with
`meanidxFirst`, which is what the source computes. -/
def meanidxFirstClaim (mask : List (List Bool)) : ℚ :=
  meanOfNats ((List.range (mask.headD []).length).map (fun j => npArgmaxBool (colOf mask j)))

/-- First index at which a row strictly exceeds the threshold `hm`, if
any: the direct per-row scan the amended claim C5 describes. -/
def firstIdxGT (hm : ℚ) : List ℚ → Option Nat
  | [] => none
  | v :: t => if hm < v then some 0 else (firstIdxGT hm t).map (· + 1)

/-- The mean index the source computes for a given (lowered) criteria
string. -/
def meanidxC (c : String) (mask : List (List Bool)) : ℚ :=
  if c = "first" then meanidxFirst mask else meanidxLast mask

/-- The `remainder` of `divmod(meanidx, 1)` as the source uses it in the
final interpolation (negated for `'last'`). -/
def remainderC (c : String) (mask : List (List Bool)) : ℚ :=
  if c = "first" then meanidxFirst mask - ⌊meanidxFirst mask⌋
  else -(meanidxLast mask - ⌊meanidxLast mask⌋)

/-! ## CentroidLocator and CropWindow -/

/-- Sum of `coordinate × value` along a 1D list of samples, starting at a
given coordinate. -/
def weightedIdxSum : Nat → List ℚ → ℚ
  | _, [] => 0
  | i, w :: t => (i : ℚ) * w + weightedIdxSum (i + 1) t

/-- Modelled from the spec: `scipy.ndimage.center_of_mass` is an external
collaborator; per the spec it is "the intensity-weighted center of mass ...
(standard moment calculation: sum over all samples of value×coordinate,
divided by sum of values, per axis)", row axis first. -/
def centerOfMass (data : List (List ℚ)) : ℚ × ℚ :=
  let total := (data.map List.sum).sum
  (weightedIdxSum 0 (data.map List.sum) / total,
   (data.map (fun row => weightedIdxSum 0 row)).sum / total)

/-- `centroid(data, dx=None, unit='spatial')` (source lines 161–190):
computes `center = (int(np.ceil(c/2)) for c in data.shape)` and the center
of mass; returns the raw center of mass whenever `unit != 'spatial'` (no
validation of `unit`, `dx` unused), else `tuple(dx * (x-c) for x, c in
zip(com, center))` — with `dx=None` the multiplication `None * float`
raises `TypeError`. -/
def centroid (data : List (List ℚ)) (dx : Option ℚ) (unit : String) :
    Except PyErr (ℚ × ℚ) :=
  let nrows := data.length
  let ncols := (data.headD []).length
  let cy : ℤ := ⌈(nrows : ℚ) / 2⌉
  let cx : ℤ := ⌈(ncols : ℚ) / 2⌉
  let com := centerOfMass data
  if unit ≠ "spatial" then .ok com
  else
    match dx with
    | none => .error .typeError
    | some d => .ok (d * (com.1 - cy), d * (com.2 - cx))

/-- Python `int(x)`: truncation toward zero. -/
def pyTrunc (q : ℚ) : ℤ := if 0 ≤ q then ⌊q⌋ else -⌊-q⌋

/-- Normalization of one Python slice bound (step 1): a negative bound
wraps from the end, then both bounds clamp to `[0, len]`. -/
def pySliceIdx (n : Nat) (i : ℤ) : Nat :=
  if i < 0 then (max (i + n) 0).toNat else min i.toNat n

/-- Python/NumPy basic slicing `l[a:b]` with step 1: out-of-range slices
silently truncate rather than raising. -/
def pySlice {α : Type} (l : List α) (a b : ℤ) : List α :=
  let s := pySliceIdx l.length a
  let e := pySliceIdx l.length b
  (l.drop s).take (e - s)

/-- `autocrop(data, px)` (source lines 193–216): pixel-unit centroid
truncated to ints, `w = px // 2`, and the window
`data[aoi_y_l:aoi_y_h, aoi_x_l:aoi_x_h]` with `aoi_y_l = cy - w`,
`aoi_y_h = aoi_y_l + w` (and likewise in x). -/
def autocrop (data : List (List ℚ)) (px : Nat) : Except PyErr (List (List ℚ)) :=
  match centroid data none "pixels" with
  | .error e => .error e
  | .ok com =>
    let cy := pyTrunc com.1
    let cx := pyTrunc com.2
    let w : ℤ := (px / 2 : Nat)
    let aoiYL := cy - w
    let aoiYH := aoiYL + w
    let aoiXL := cx - w
    let aoiXH := aoiXL + w
    .ok ((pySlice data aoiYL aoiYH).map (fun row => pySlice row aoiXL aoiXH))

/-- The shape `(rows, cols)` of a 2D array. -/
def shape2 (m : List (List ℚ)) : Nat × Nat := (m.length, (m.headD []).length)

/-! ## EncircledEnergyEngine -/

/-- The `radius` argument of `encircled_energy`: a number or an iterable. -/
inductive RadiusArg where
  | num (q : ℚ)
  | arr (l : List ℚ)
  deriving DecidableEq, Repr

/-- Result of `encircled_energy`: a scalar or an array. -/
inductive EEOut where
  | scalar (q : ℚ)
  | array (l : List ℚ)
  deriving DecidableEq, Repr

/-- `nx` of `np.meshgrid(mtf.x, mtf.y)`: `nx[i][j] = mtf.x[j]`, with
`len(mtf.y)` rows. -/
def meshNX (mx my : List ℚ) : List (List ℚ) := my.map (fun _ => mx)

/-- `ny` of `np.meshgrid(mtf.x, mtf.y)`: `ny[i][j] = mtf.y[i]`. -/
def meshNY (mx my : List ℚ) : List (List ℚ) :=
  my.map (fun yv => mx.map (fun _ => yv))

/-- `nu_p = np.sqrt(nx ** 2 + ny ** 2)`; `np.sqrt` is a collaborator of
the external array library, taken as the function parameter `sq`. -/
def nuP (sq : ℚ → ℚ) (mx my : List ℚ) : List (List ℚ) :=
  my.map (fun yv => mx.map (fun xv => sq (xv ^ 2 + yv ^ 2)))

/-- `nu_p[nu_p == 0] = 1e-16` (source lines 318–321): every exact-zero
entry of `nu_p` replaced by the nonzero constant 1e-16, which the source
comments is "meaninglessly small and will avoid division by 0". -/
def nuPReplaced (sq : ℚ → ℚ) (mx my : List ℚ) : List (List ℚ) :=
  (nuP sq mx my).map (fun row => row.map (fun v => if v = 0 then 1 / 10 ^ 16 else v))

/-- NumPy 2D indexing `m[i, j]` with nonnegative indices. -/
def pyGet2 (m : List (List ℚ)) (i j : Nat) : Except PyErr ℚ :=
  match m[i]? with
  | none => .error .indexError
  | some row =>
    match row[j]? with
    | none => .error .indexError
    | some v => .ok v

/-- Elementwise product of two 2D arrays (`mtf.data * integration_fourier`). -/
def mul2 (a b : List (List ℚ)) : List (List ℚ) :=
  List.zipWith (List.zipWith (· * ·)) a b

/-- `.sum()` over a 2D array. -/
def sum2 (m : List (List ℚ)) : ℚ := (m.map List.sum).sum

/-- `_encircled_energy_core(mtf_data, radius, nu_p, dx, dy)` (source lines
335–365): `integration_fourier = special.j1(2 * np.pi * radius * nu_p) /
nu_p`, `dat = mtf_data * integration_fourier`, result
`radius * dat.sum() * dx * dy`.  The Bessel function `special.j1` is a
collaborator of the external special-functions library, taken as the
function parameter `j1`. -/
def eeCore (j1 : ℚ → ℚ) (mtfData : List (List ℚ)) (radius : ℚ)
    (nup : List (List ℚ)) (dx dy : ℚ) : ℚ :=
  let integrationFourier :=
    nup.map (fun row => row.map (fun v => j1 (2 * npPi * radius * v) / v))
  let dat := mul2 mtfData integrationFourier
  radius * sum2 dat * dx * dy

/-- The radius-independent prefix of `encircled_energy` after
`mtf_from_psf` (source lines 314–321): the meshgrid of the MTF frequency
axes, `nu_p` with its zero-replacement, and the frequency deltas
`dnx, dny = ny[1, 0] - ny[0, 0], nx[0, 1] - nx[0, 0]`. -/
def eeSetup (sq : ℚ → ℚ) (mx my : List ℚ) :
    Except PyErr (List (List ℚ) × ℚ × ℚ) :=
  let nup := nuPReplaced sq mx my
  match pyGet2 (meshNY mx my) 1 0 with
  | .error e => .error e
  | .ok a =>
    match pyGet2 (meshNY mx my) 0 0 with
    | .error e => .error e
    | .ok b =>
      match pyGet2 (meshNX mx my) 0 1 with
      | .error e => .error e
      | .ok c =>
        match pyGet2 (meshNX mx my) 0 0 with
        | .error e => .error e
        | .ok d => .ok (nup, a - b, c - d)

/-- `encircled_energy(psf, dx, radius)` (source lines 287–332) with the
`mtf_from_psf` collaborator factored out as its output.

Modelled from the spec: `mtf_from_psf(psf, dx)` is an external collaborator
(`prysm/otf.py` is not part of this source tree) returning an MTF object
with 1D frequency axes `.x`, `.y` and a 2D `.data` array; per the spec it
is a pure function of `(psf, dx)`, so we take the axes `mx`, `my` and the
array `mdata` directly.  Everything after that call is translated from the
source: the meshgrid/`nu_p` setup, the number-vs-iterable dispatch on
`radius`, the division of each radius by 1e3, the per-radius core calls
collected in input order for the iterable path, and the direct scalar
return for the numeric path. -/
def encircled_energy_mtf (sq j1 : ℚ → ℚ) (mx my : List ℚ)
    (mdata : List (List ℚ)) (radius : RadiusArg) : Except PyErr EEOut :=
  match eeSetup sq mx my with
  | .error e => .error e
  | .ok (nup, dnx, dny) =>
    match radius with
    | .arr rs => .ok (.array (rs.map (fun rr => eeCore j1 mdata (rr / 1000) nup dnx dny)))
    | .num rr => .ok (.scalar (eeCore j1 mdata (rr / 1000) nup dnx dny))

/-! ## Concrete test arrays -/

/-- A 9×9 array with a single nonzero sample at row 4, column 4 (its
center of mass, hence its pixel-unit centroid, is exactly `(4, 4)`). -/
def demoData9 : List (List ℚ) :=
  [[0, 0, 0, 0, 0, 0, 0, 0, 0],
   [0, 0, 0, 0, 0, 0, 0, 0, 0],
   [0, 0, 0, 0, 0, 0, 0, 0, 0],
   [0, 0, 0, 0, 0, 0, 0, 0, 0],
   [0, 0, 0, 0, 1, 0, 0, 0, 0],
   [0, 0, 0, 0, 0, 0, 0, 0, 0],
   [0, 0, 0, 0, 0, 0, 0, 0, 0],
   [0, 0, 0, 0, 0, 0, 0, 0, 0],
   [0, 0, 0, 0, 0, 0, 0, 0, 0]]

/-- A symmetric 3×3 array with its single peak at the geometric center
(row 1, column 1). -/
def demo3 : List (List ℚ) := [[0, 0, 0], [0, 1, 0], [0, 0, 0]]

/-! ## Theorems -/

/-- **C1** (code-bug evaluation): on a 9×9 array whose pixel-unit centroid
`(4, 4)` is more than `px // 2 = 2` samples from every edge, `autocrop`
with `px = 4` returns a window of shape `(2, 2)`, not the claimed
`(px, px) = (4, 4)`: the source computes the upper slice bounds as
`aoi_l + w` with `w = px // 2`, so the window side is `px // 2`,
contradicting its own docstring ("px : window full width, samples"). -/
theorem C1_autocrop_eval :
    autocrop demoData9 4 = .ok [[0, 0], [0, 0]] ∧
    shape2 [[0, 0], [0, 0]] = (2, 2) ∧ ((2, 2) : Nat × Nat) ≠ (4, 4) := by
  refine ⟨?_, by norm_num [shape2], by decide⟩
  have hu : "pixels" ≠ "spatial" := by decide
  norm_num [autocrop, centroid, centerOfMass, weightedIdxSum, pyTrunc, pySlice, pySliceIdx,
    Int.toNat, demoData9, hu]

/-- **C2** (code-bug evaluation): `estimate_size` with the numeric metric
`1/2` raises `AttributeError` at the unconditional `metric.lower()` call
instead of returning normally with `hm = 1/2`; the
`isinstance(metric, numbers.Number)` arm and the docstring's
"`metric : str or float`" promise are unreachable dead code. -/
theorem C2_numeric_metric_eval :
    estimate_size_polar [0, 1] [[1, 1], [0, 0]] (.num (1/2)) "last" = .error .attributeError := by
  norm_num [estimate_size_polar, pyLowerMetric]

/-- **C3** (counterexample): for the symmetric 3×3 array with its single
peak at the geometric center and matching `dx = 1`, `centroid` in spatial
units returns `(-1, -1)`, not the claimed `(0, 0)`: the source's center
reference is `int(np.ceil(c/2)) = 2` per axis while the center of mass of
the symmetric array is `1` per axis. -/
theorem C3_counterexample :
    centroid demo3 (some 1) "spatial" = .ok (-1, -1) ∧ ((-1 : ℚ), (-1 : ℚ)) ≠ (0, 0) := by
  have hc : (⌈(3 : ℚ) / 2⌉ : ℤ) = 2 := by norm_num [Int.ceil_eq_iff]
  constructor
  · norm_num [centroid, centerOfMass, weightedIdxSum, demo3, hc]
  · norm_num

/-- **C4** (counterexample): on polar data constant over angle and
unimodal (decreasing) outward in radius — radial profile `3, 2, 1, 0` over
two angle columns, radii `0, 1, 2, 3`, metric `fwhm` — `criteria='first'`
returns `0` while `criteria='last'` returns `2`: two full radial bins
apart, not identical up to interpolation rounding. -/
theorem C4_counterexample :
    estimate_size_polar [0, 1, 2, 3] [[3, 3], [2, 2], [1, 1], [0, 0]] (.str "fwhm") "first" = .ok 0 ∧
    estimate_size_polar [0, 1, 2, 3] [[3, 3], [2, 2], [1, 1], [0, 0]] (.str "fwhm") "last" = .ok 2 ∧
    (0 : ℚ) ≠ 2 := by
  have h1 : pyLower "fwhm" = "fwhm" := by decide
  have h2 : pyLower "first" = "first" := by decide
  have h3 : pyLower "last" = "last" := by decide
  have h4 : "last" ≠ "first" := by decide
  refine ⟨?_, ?_, by norm_num⟩ <;>
  norm_num [estimate_size_polar, pyLowerMetric, h1, h2, h3, h4, polarMax, hmOf, maskOf,
    firstTrueIdx, npArgmaxBool, npArgmaxAxis1, meanOfNats, npGet, esFromMask, max_def, Int.fract,
    Int.toNat]

/-- **C5** (counterexample): under the spec's collaborator contract
(`polar[i][j]` at radius `r[i]`, angle `p[j]`), for
`polar = [[0, 2], [0, 0]]` with `hm = 1` the source's averaged quantity
`np.argmax(mask, axis=1).mean()` is `1/2` (per-RADIUS first-angle
indices), while the claim's per-angle first-radius average is `0`; the
function's result `1 = r[0] + (1/2)·r[1]` reflects the former. -/
theorem C5_counterexample :
    meanidxFirst (maskOf [[0, 2], [0, 0]] 1) = 1/2 ∧
    meanidxFirstClaim (maskOf [[0, 2], [0, 0]] 1) = 0 ∧
    estimate_size_polar [0, 2] [[0, 2], [0, 0]] (.str "fwhm") "first" = .ok 1 ∧
    (1/2 : ℚ) ≠ 0 := by
  have h1 : pyLower "fwhm" = "fwhm" := by decide
  have h2 : pyLower "first" = "first" := by decide
  refine ⟨?_, ?_, ?_, by norm_num⟩
  · norm_num [meanidxFirst, maskOf, meanOfNats, npArgmaxBool, firstTrueIdx]
  · norm_num [meanidxFirstClaim, maskOf, meanOfNats, npArgmaxBool, firstTrueIdx, colOf,
      List.range_succ]
  · norm_num [estimate_size_polar, pyLowerMetric, h1, h2, polarMax, hmOf, maskOf,
      firstTrueIdx, npArgmaxBool, npArgmaxAxis1, meanOfNats, npGet, esFromMask, max_def,
      Int.fract, Int.toNat]

/-- **C6** (counterexample): with radii `r = [1, 3]` (ascending, uniform
spacing 2, as the spec's collaborator contract allows) and an averaged
crossing index of `1/2`, `estimate_size` returns
`5/2 = r[0] + (1/2) · r[1]`, not the claimed
`r[0] + (1/2) · (r[1] - r[0]) = 2`: the source multiplies the fractional
remainder by `r[1]` itself, which equals the bin spacing only when
`r[0] = 0`. -/
theorem C6_counterexample :
    estimate_size_polar [1, 3] [[0, 2], [0, 0]] (.str "fwhm") "first" = .ok (5/2) ∧
    (5/2 : ℚ) ≠ 1 + (1/2) * (3 - 1) := by
  have h1 : pyLower "fwhm" = "fwhm" := by decide
  have h2 : pyLower "first" = "first" := by decide
  refine ⟨?_, by norm_num⟩
  norm_num [estimate_size_polar, pyLowerMetric, h1, h2, polarMax, hmOf, maskOf,
    firstTrueIdx, npArgmaxBool, npArgmaxAxis1, meanOfNats, npGet, esFromMask, max_def,
    Int.fract, Int.toNat]

/-- **C9** (counterexample): when the metric string AND the criteria
string are both outside their enumerated sets, `estimate_size` fails with
the invalid-METRIC error, not the invalid-criteria error the claim
promises for every bad criteria: the metric dispatch runs first. -/
theorem C9_counterexample :
    estimate_size_polar [0, 1] [[1]] (.str "zzz") "zzz"
      = .error (.valueError "unknown metric, use fwhm, 1/e, or 1/e^2") ∧
    PyErr.valueError "unknown metric, use fwhm, 1/e, or 1/e^2"
      ≠ PyErr.valueError "unknown criteria, use first or last" := by
  have h1 : pyLower "zzz" = "zzz" := by decide
  have h2 : "zzz" ≠ "fwhm" := by decide
  have h3 : "zzz" ≠ "1/e" := by decide
  have h4 : "zzz" ≠ "1/e^2" := by decide
  refine ⟨?_, by decide⟩
  norm_num [estimate_size_polar, pyLowerMetric, h1, h2, h3, h4, polarMax, hmOf]

/-! ### Helper lemmas -/

theorem polarMax_ok_of_ne_nil (polar : List (List ℚ)) (h : polar.flatten ≠ []) :
    ∃ q, polarMax polar = .ok q := by
  unfold polarMax
  cases hfl : polar.flatten with
  | nil => exact absurd hfl h
  | cons x xs => exact ⟨_, rfl⟩

theorem hmOf_ok_of_valid (s : String) (mx : ℚ)
    (hs : s = "fwhm" ∨ s = "1/e" ∨ s = "1/e^2") : ∃ h0, hmOf s mx = .ok h0 := by
  rcases hs with h | h | h <;> subst h <;> simp [hmOf]

/-- For a valid metric string, `estimate_size` reduces to the criteria
branch applied to the threshold mask. -/
theorem estimate_size_str (r : List ℚ) (polar : List (List ℚ)) (s criteria : String)
    (mx h0 : ℚ) (hmax : polarMax polar = .ok mx) (hhm : hmOf (pyLower s) mx = .ok h0) :
    estimate_size_polar r polar (.str s) criteria
      = esFromMask r (maskOf polar h0) (pyLower criteria) := by
  simp [estimate_size_polar, pyLowerMetric, hmax, hhm]

theorem firstTrueIdx_replicate_false (n : Nat) :
    firstTrueIdx (List.replicate n false) = none := by
  induction n with
  | zero => simp [firstTrueIdx]
  | succ k ih => simp [List.replicate_succ, firstTrueIdx, ih]

/-- `np.argmax` of a constant boolean row is 0. -/
theorem npArgmaxBool_replicate (n : Nat) (b : Bool) :
    npArgmaxBool (List.replicate n b) = 0 := by
  cases b
  · simp [npArgmaxBool, firstTrueIdx_replicate_false]
  · cases n with
    | zero => simp [npArgmaxBool, firstTrueIdx]
    | succ k => simp [npArgmaxBool, List.replicate_succ, firstTrueIdx]

theorem npArgmaxAxis1_rowconst (rows : List ℚ) (m : Nat) (b : ℚ → Bool) (hm0 : 0 < m) :
    npArgmaxAxis1 (rows.map (fun v => List.replicate m (b v)))
      = .ok (List.replicate rows.length 0) := by
  have hany : (rows.map (fun v => List.replicate m (b v))).any List.isEmpty = false := by
    simp only [List.any_eq_false, List.mem_map]
    rintro x ⟨v, hv, rfl⟩
    simp [List.isEmpty_iff]
    omega
  have hmap : (rows.map (fun v => List.replicate m (b v))).map npArgmaxBool
      = rows.map (fun _ => (0 : Nat)) := by
    rw [List.map_map]
    exact List.map_congr_left (fun v _ => npArgmaxBool_replicate m (b v))
  rw [npArgmaxAxis1, if_neg (by simp [hany]), hmap, List.map_const']

theorem meanOfNats_replicate_zero (n : Nat) : meanOfNats (List.replicate n 0) = 0 := by
  rw [meanOfNats, List.map_replicate]
  norm_num [List.sum_replicate]

theorem npGet_natCast (r : List ℚ) (m : Nat) (hmr : m < r.length) :
    npGet r (m : ℤ) = .ok (r.getD m 0) := by
  have h1 : ¬ ((m : ℤ) < 0) := by omega
  have h2 : (0 : ℤ) ≤ (m : ℤ) ∧ (m : ℤ) < r.length := by omega
  simp [npGet, h1, h2]

/-- On a mask whose rows are all constant (data constant over the angle
axis), `criteria='first'` lands on index 0 exactly. -/
theorem esFromMask_first_rowconst (r rows : List ℚ) (m : Nat) (b : ℚ → Bool)
    (hm0 : 0 < m) (hr2 : 2 ≤ r.length) :
    esFromMask r (rows.map (fun v => List.replicate m (b v))) "first" = .ok (r.getD 0 0) := by
  have hax := npArgmaxAxis1_rowconst rows m b hm0
  have hmean := meanOfNats_replicate_zero rows.length
  have hg0 : npGet r (0 : ℤ) = .ok (r.getD 0 0) := by
    simpa using npGet_natCast r 0 (by omega)
  have hg1 : npGet r (1 : ℤ) = .ok (r.getD 1 0) := by
    simpa using npGet_natCast r 1 (by omega)
  simp only [esFromMask, if_pos rfl, hax, hmean, Int.floor_zero, Int.cast_zero, sub_zero,
    zero_mul, add_zero, sub_self]
  rw [hg0, hg1]
  norm_num

/-- On the same row-constant mask, `criteria='last'` lands on index `m`
(the number of angle columns) exactly. -/
theorem esFromMask_last_rowconst (r rows : List ℚ) (m : Nat) (b : ℚ → Bool)
    (hm0 : 0 < m) (hrows : rows ≠ []) (hmr : m < r.length) (hr2 : 2 ≤ r.length) :
    esFromMask r (rows.map (fun v => List.replicate m (b v))) "last" = .ok (r.getD m 0) := by
  have hne : ("last" : String) ≠ "first" := by decide
  have hrev : (rows.map (fun v => List.replicate m (b v))).map List.reverse
      = rows.map (fun v => List.replicate m (b v)) := by
    rw [List.map_map]
    exact List.map_congr_left (fun v _ => List.reverse_replicate m (b v))
  have hax := npArgmaxAxis1_rowconst rows m b hm0
  have hmean := meanOfNats_replicate_zero rows.length
  have hhead : ((rows.map (fun v => List.replicate m (b v))).headD []).length = m := by
    cases rows with
    | nil => exact absurd rfl hrows
    | cons v t => simp
  have hgm : npGet r ((m : ℕ) : ℤ) = .ok (r.getD m 0) := npGet_natCast r m hmr
  have hg1 : npGet r (1 : ℤ) = .ok (r.getD 1 0) := by
    simpa using npGet_natCast r 1 (by omega)
  simp only [esFromMask, if_neg hne, if_pos rfl, hrev, hax, hmean, hhead, sub_zero,
    Int.floor_natCast, Int.cast_natCast, sub_self, neg_zero, zero_mul, add_zero]
  rw [hgm, hg1]
  norm_num

/-- **C3** (amended): for any array whose center of mass sits at the
geometric center `((n-1)/2, (m-1)/2)` — e.g. a symmetric array with its
single peak there — the spatial centroid is, per axis,
`dx * ((n-1)/2 - ceil(n/2))` (that is `-dx` for odd extents and `-dx/2`
for even ones), which is never `(0, 0)` for `dx ≠ 0`; pixel units return
the raw center-of-mass indices, the geometric center. -/
theorem C3_centroid_amended (data : List (List ℚ)) (dx : ℚ)
    (hcom : centerOfMass data
      = (((data.length : ℚ) - 1) / 2, (((data.headD []).length : ℚ) - 1) / 2)) :
    centroid data (some dx) "spatial"
      = .ok (dx * (((data.length : ℚ) - 1) / 2 - (⌈(data.length : ℚ) / 2⌉ : ℤ)),
             dx * ((((data.headD []).length : ℚ) - 1) / 2
                    - (⌈((data.headD []).length : ℚ) / 2⌉ : ℤ))) ∧
    centroid data none "pixels"
      = .ok (((data.length : ℚ) - 1) / 2, (((data.headD []).length : ℚ) - 1) / 2) ∧
    (dx ≠ 0 → centroid data (some dx) "spatial" ≠ .ok (0, 0)) := by
  have key : ∀ n : ℕ, ((n : ℚ) - 1) / 2 - (⌈(n : ℚ) / 2⌉ : ℤ) < 0 := by
    intro n
    have h2 : ((n : ℚ) / 2) ≤ (⌈(n : ℚ) / 2⌉ : ℤ) := Int.le_ceil _
    linarith
  have hsp : centroid data (some dx) "spatial"
      = .ok (dx * (((data.length : ℚ) - 1) / 2 - (⌈(data.length : ℚ) / 2⌉ : ℤ)),
             dx * ((((data.headD []).length : ℚ) - 1) / 2
                    - (⌈((data.headD []).length : ℚ) / 2⌉ : ℤ))) := by
    simp [centroid, hcom]
  refine ⟨hsp, ?_, ?_⟩
  · simp [centroid, hcom]
  · intro hdx heq
    rw [hsp] at heq
    have h1 : dx * (((data.length : ℚ) - 1) / 2 - (⌈(data.length : ℚ) / 2⌉ : ℤ)) = 0 := by
      have := Except.ok.inj heq
      exact congrArg Prod.fst this
    exact absurd h1 (mul_ne_zero hdx (ne_of_lt (key data.length)))

/-- Witness for C3: the amended theorem applied to the symmetric 3×3 peak
array with `dx = 2`. -/
theorem C3_witness : centroid demo3 (some 2) "spatial" ≠ .ok (0, 0) :=
  (C3_centroid_amended demo3 2
    (by norm_num [centerOfMass, weightedIdxSum, demo3])).2.2 (by norm_num)

/-- **C4** (amended): on polar data constant over the angle axis (each
radius row of the spec-contract polar array constant, `m ≥ 1` angle
columns), `criteria='first'` always returns `r[0]` — `np.argmax` of a
constant row is 0, whatever the radial profile — while `criteria='last'`
always returns `r[m]`; the two are NOT identical in general (they agree
only when `r[0] = r[m]`), regardless of unimodality. -/
theorem C4_amended (r profile : List ℚ) (m : Nat) (s : String)
    (hs : pyLower s = "fwhm" ∨ pyLower s = "1/e" ∨ pyLower s = "1/e^2")
    (hp : profile ≠ []) (hm0 : 0 < m) (hmr : m < r.length) (hr2 : 2 ≤ r.length) :
    estimate_size_polar r (profile.map (fun v => List.replicate m v)) (.str s) "first"
      = .ok (r.getD 0 0) ∧
    estimate_size_polar r (profile.map (fun v => List.replicate m v)) (.str s) "last"
      = .ok (r.getD m 0) := by
  have hfl : (profile.map (fun v => List.replicate m v)).flatten ≠ [] := by
    cases profile with
    | nil => exact absurd rfl hp
    | cons v t =>
      cases m with
      | zero => omega
      | succ k => simp [List.replicate_succ]
  obtain ⟨mx, hmax⟩ := polarMax_ok_of_ne_nil _ hfl
  obtain ⟨h0, hh0⟩ := hmOf_ok_of_valid (pyLower s) mx hs
  have hmask : maskOf (profile.map (fun v => List.replicate m v)) h0
      = profile.map (fun v => List.replicate m (decide (h0 < v))) := by
    simp [maskOf, List.map_map, List.map_replicate]
  constructor
  · rw [estimate_size_str r _ s "first" mx h0 hmax hh0,
      show pyLower "first" = "first" from by decide, hmask]
    exact esFromMask_first_rowconst r profile m _ hm0 hr2
  · rw [estimate_size_str r _ s "last" mx h0 hmax hh0,
      show pyLower "last" = "last" from by decide, hmask]
    exact esFromMask_last_rowconst r profile m _ hm0 hp hmr hr2

/-- Witness for C4: radial profile `[7, 3]` over 2 angle columns, radii
`[0, 1, 2, 3]`, metric `'FWHM'` (case-insensitive): `'first'` yields
`r[0] = 0` and `'last'` yields `r[2] = 2`. -/
theorem C4_witness :
    estimate_size_polar [0, 1, 2, 3] ([7, 3].map (fun v => List.replicate 2 v))
      (.str "FWHM") "first" = .ok ([(0 : ℚ), 1, 2, 3].getD 0 0) ∧
    estimate_size_polar [0, 1, 2, 3] ([7, 3].map (fun v => List.replicate 2 v))
      (.str "FWHM") "last" = .ok ([(0 : ℚ), 1, 2, 3].getD 2 0) :=
  C4_amended [0, 1, 2, 3] [7, 3] 2 "FWHM" (Or.inl (by decide)) (by simp)
    (by omega) (by simp) (by simp)

/-- **C10**: `centroid` performs no validation of its `unit` argument:
for every string other than exactly `"spatial"` (including `"pixels"`,
`"PIXELS"`, `"Spatial"` or anything else) it returns the raw pixel-unit
center of mass without error, `dx` unused (it may be `None`); the spatial
branch is taken only for the exact lowercase string `"spatial"`. -/
theorem C10_centroid_unit (data : List (List ℚ)) (dx : Option ℚ) (unit : String)
    (h : unit ≠ "spatial") : centroid data dx unit = .ok (centerOfMass data) := by
  simp [centroid, h]

/-- Witness for C10: unit `"PIXELS"` (not lowercase, hence not validated)
with `dx = None` returns the raw center of mass. -/
theorem C10_witness : centroid demo3 none "PIXELS" = .ok (centerOfMass demo3) :=
  C10_centroid_unit demo3 none "PIXELS" (by decide)

theorem firstTrueIdx_map_decide (h0 : ℚ) (row : List ℚ) :
    firstTrueIdx (row.map (fun v => decide (h0 < v))) = firstIdxGT h0 row := by
  induction row with
  | nil => rfl
  | cons v t ih => by_cases h : h0 < v <;> simp [firstTrueIdx, firstIdxGT, h, ih]

/-- **C5** (amended): for every polar array and threshold `hm`, the
averaged quantity of the `criteria='first'` branch is, for each RADIUS
(row, under the spec's collaborator contract), the index of the first
ANGLE at which `polar > hm` holds (0 when there is none), averaged across
all radii — not the per-angle first-radius index the claim describes. -/
theorem C5_amended (polar : List (List ℚ)) (h0 : ℚ) :
    meanidxFirst (maskOf polar h0)
      = meanOfNats (polar.map (fun row => (firstIdxGT h0 row).getD 0)) := by
  unfold meanidxFirst maskOf
  rw [List.map_map]
  congr 1
  exact List.map_congr_left (fun row _ => by simp [npArgmaxBool, firstTrueIdx_map_decide])

/-- Unfolding of the `criteria='first'` branch. -/
theorem esFromMask_first (r : List ℚ) (mask : List (List Bool)) :
    esFromMask r mask "first"
      = match npArgmaxAxis1 mask with
        | .error e => .error e
        | .ok idxs =>
          match npGet r ⌊meanOfNats idxs⌋ with
          | .error e => .error e
          | .ok rl =>
            match npGet r 1 with
            | .error e => .error e
            | .ok r1 => .ok (rl + (meanOfNats idxs - ⌊meanOfNats idxs⌋) * r1) := rfl

/-- Unfolding of the `criteria='last'` branch. -/
theorem esFromMask_last (r : List ℚ) (mask : List (List Bool)) :
    esFromMask r mask "last"
      = match npArgmaxAxis1 (mask.map List.reverse) with
        | .error e => .error e
        | .ok idxs =>
          match npGet r ⌊((mask.headD []).length : ℚ) - meanOfNats idxs⌋ with
          | .error e => .error e
          | .ok rl =>
            match npGet r 1 with
            | .error e => .error e
            | .ok r1 =>
              .ok (rl + (-((((mask.headD []).length : ℚ) - meanOfNats idxs)
                - ⌊((mask.headD []).length : ℚ) - meanOfNats idxs⌋)) * r1) := rfl

theorem npArgmaxAxis1_ok_inv (mask : List (List Bool)) (idxs : List Nat)
    (hax : npArgmaxAxis1 mask = .ok idxs) : idxs = mask.map npArgmaxBool := by
  unfold npArgmaxAxis1 at hax
  by_cases hany : mask.any List.isEmpty
  · rw [if_pos hany] at hax; exact absurd hax (by simp)
  · rw [if_neg hany] at hax; exact (Except.ok.inj hax).symm

theorem meanidxC_first (mask : List (List Bool)) : meanidxC "first" mask = meanidxFirst mask := by
  simp [meanidxC]

theorem meanidxC_last (mask : List (List Bool)) : meanidxC "last" mask = meanidxLast mask := by
  unfold meanidxC
  rw [if_neg (by decide)]

theorem remainderC_first (mask : List (List Bool)) :
    remainderC "first" mask = meanidxFirst mask - ⌊meanidxFirst mask⌋ := by
  simp [remainderC]

theorem remainderC_last (mask : List (List Bool)) :
    remainderC "last" mask = -(meanidxLast mask - ⌊meanidxLast mask⌋) := by
  unfold remainderC
  rw [if_neg (by decide)]

/-- **C6** (amended): every result the criteria branch returns equals
`r[lowidx] + remainder * r[1]` — the fractional remainder is multiplied by
the second radius value `r[1]` itself, not by the bin spacing
`r[1] - r[0]` (the two agree only when `r[0] = 0`). -/
theorem C6_amended (r : List ℚ) (mask : List (List Bool)) (c : String) (v : ℚ)
    (hc : c = "first" ∨ c = "last") (hok : esFromMask r mask c = .ok v) :
    ∃ a b : ℚ, npGet r ⌊meanidxC c mask⌋ = .ok a ∧ npGet r 1 = .ok b ∧
      v = a + remainderC c mask * b := by
  rcases hc with h | h <;> subst h
  · rw [esFromMask_first] at hok
    cases hax : npArgmaxAxis1 mask with
    | error e => simp only [hax] at hok; exact absurd hok (by simp)
    | ok idxs =>
      have hidxs := npArgmaxAxis1_ok_inv mask idxs hax
      subst hidxs
      simp only [hax] at hok
      cases h1 : npGet r ⌊meanOfNats (mask.map npArgmaxBool)⌋ with
      | error e => simp only [h1] at hok; exact absurd hok (by simp)
      | ok a =>
        simp only [h1] at hok
        cases h2 : npGet r 1 with
        | error e => simp only [h2] at hok; exact absurd hok (by simp)
        | ok b =>
          simp only [h2] at hok
          have hv := Except.ok.inj hok
          refine ⟨a, b, ?_, rfl, ?_⟩
          · rw [meanidxC_first]; unfold meanidxFirst; exact h1
          · rw [remainderC_first]; unfold meanidxFirst; linarith [hv]
  · rw [esFromMask_last] at hok
    cases hax : npArgmaxAxis1 (mask.map List.reverse) with
    | error e => simp only [hax] at hok; exact absurd hok (by simp)
    | ok idxs =>
      have hidxs := npArgmaxAxis1_ok_inv _ idxs hax
      subst hidxs
      simp only [hax] at hok
      cases h1 : npGet r ⌊((mask.headD []).length : ℚ)
          - meanOfNats ((mask.map List.reverse).map npArgmaxBool)⌋ with
      | error e => simp only [h1] at hok; exact absurd hok (by simp)
      | ok a =>
        simp only [h1] at hok
        cases h2 : npGet r 1 with
        | error e => simp only [h2] at hok; exact absurd hok (by simp)
        | ok b =>
          simp only [h2] at hok
          have hv := Except.ok.inj hok
          refine ⟨a, b, ?_, rfl, ?_⟩
          · rw [meanidxC_last]; unfold meanidxLast; exact h1
          · rw [remainderC_last]; unfold meanidxLast; linarith [hv]

/-- Witness for C6: the amended theorem applied at radii `[0, 2]` and
the mask whose averaged first-index is `1/2`. -/
theorem C6_witness :
    ∃ a b : ℚ, npGet [0, 2] ⌊meanidxC "first" [[false, true], [false, false]]⌋ = .ok a ∧
      npGet [0, 2] 1 = .ok b ∧
      (1 : ℚ) = a + remainderC "first" [[false, true], [false, false]] * b :=
  C6_amended [0, 2] [[false, true], [false, false]] "first" 1 (Or.inl rfl)
    (by norm_num [esFromMask, npArgmaxAxis1, npArgmaxBool, firstTrueIdx, meanOfNats, npGet,
      Int.fract, Int.toNat])

theorem getD_map_of_lt (f : ℚ → ℚ) (l : List ℚ) (i : Nat) (hi : i < l.length) :
    (l.map f).getD i 0 = f (l.getD i 0) := by
  rw [List.getD_eq_getElem?_getD, List.getElem?_map, List.getElem?_eq_getElem hi,
    List.getD_eq_getElem?_getD, List.getElem?_eq_getElem hi]
  rfl

/-- **C7**: whenever `encircled_energy` on an iterable of radii returns an
array, that array has exactly one entry per input radius, in input order,
and its `i`-th entry equals the scalar the same call returns for the
single radius `radii[i]`; a single numeric radius returns that scalar
directly. -/
theorem C7_encircled_energy_list (sq j1 : ℚ → ℚ) (mx my : List ℚ)
    (mdata : List (List ℚ)) (rs out : List ℚ)
    (hok : encircled_energy_mtf sq j1 mx my mdata (.arr rs) = .ok (.array out)) :
    out.length = rs.length ∧
    ∀ i, i < rs.length →
      encircled_energy_mtf sq j1 mx my mdata (.num (rs.getD i 0))
        = .ok (.scalar (out.getD i 0)) := by
  cases hst : eeSetup sq mx my with
  | error e => simp [encircled_energy_mtf, hst] at hok
  | ok p =>
    obtain ⟨nup, dnx, dny⟩ := p
    simp only [encircled_energy_mtf, hst] at hok
    have hout : out = rs.map (fun rr => eeCore j1 mdata (rr / 1000) nup dnx dny) := by
      have h1 := Except.ok.inj hok
      exact (EEOut.array.inj h1).symm
    subst hout
    refine ⟨by simp, ?_⟩
    intro i hi
    simp only [encircled_energy_mtf, hst]
    rw [getD_map_of_lt _ rs i hi]

/-- Witness for C7: a one-element radius list, evaluated concretely. -/
theorem C7_witness :
    encircled_energy_mtf (fun q => q) (fun q => q) [0, 1] [0, 1] [] (.num ([(1 : ℚ)].getD 0 0))
      = .ok (.scalar ([(0 : ℚ)].getD 0 0)) :=
  (C7_encircled_energy_list (fun q => q) (fun q => q) [0, 1] [0, 1] [] [1] [0]
    (by norm_num [encircled_energy_mtf, eeSetup, nuPReplaced, nuP, meshNX, meshNY, pyGet2,
      eeCore, mul2, sum2])).2 0 (by norm_num)

/-- **C8**: whenever the `encircled_energy` setup succeeds, the `nu_p`
array it passes to `_encircled_energy_core` is the zero-replaced one, and
every one of its elements is nonzero — each entry is either the original
nonzero value or the substituted constant `1e-16` — so the division
`j1(2*pi*radius*nu_p) / nu_p` in the core never divides by zero. -/
theorem C8_nup_nonzero (sq : ℚ → ℚ) (mx my : List ℚ) (nup : List (List ℚ)) (dnx dny : ℚ)
    (hok : eeSetup sq mx my = .ok (nup, dnx, dny)) :
    ∀ row ∈ nup, ∀ v ∈ row, v ≠ 0 := by
  have hnup : nup = nuPReplaced sq mx my := by
    unfold eeSetup at hok
    cases h1 : pyGet2 (meshNY mx my) 1 0 with
    | error e => rw [h1] at hok; exact absurd hok (by simp)
    | ok a =>
      rw [h1] at hok
      cases h2 : pyGet2 (meshNY mx my) 0 0 with
      | error e => rw [h2] at hok; exact absurd hok (by simp)
      | ok b =>
        rw [h2] at hok
        cases h3 : pyGet2 (meshNX mx my) 0 1 with
        | error e => rw [h3] at hok; exact absurd hok (by simp)
        | ok c =>
          rw [h3] at hok
          cases h4 : pyGet2 (meshNX mx my) 0 0 with
          | error e => rw [h4] at hok; exact absurd hok (by simp)
          | ok d =>
            rw [h4] at hok
            have h5 := Except.ok.inj hok
            exact ((Prod.mk.injEq _ _ _ _).mp h5).1.symm
  subst hnup
  intro row hrow v hv
  rw [nuPReplaced, List.mem_map] at hrow
  obtain ⟨r0, hr0, rfl⟩ := hrow
  rw [List.mem_map] at hv
  obtain ⟨w, hw, rfl⟩ := hv
  by_cases hz : w = 0
  · rw [if_pos hz]; norm_num
  · rw [if_neg hz]; exact hz

/-- Witness for C8: on a 2×2 frequency grid containing the origin, the
replaced origin entry `1e-16` is nonzero. -/
theorem C8_witness : ((1 : ℚ) / 10 ^ 16) ≠ 0 :=
  C8_nup_nonzero (fun q => q) [0, 1] [0, 1] [[1 / 10 ^ 16, 1], [1, 2]] 1 1
    (by norm_num [eeSetup, nuPReplaced, nuP, meshNX, meshNY, pyGet2])
    [1 / 10 ^ 16, 1] (by norm_num) (1 / 10 ^ 16) (by norm_num)

/-- **C9** (amended): for every string metric outside
`{'fwhm','1/e','1/e^2'}` (case-insensitively) `estimate_size` fails with
the invalid-metric `ValueError` whatever the criteria, and for every
criteria outside `{'first','last'}` (case-insensitively) it fails with the
invalid-criteria `ValueError` PROVIDED the metric is valid — when both are
invalid the metric error is raised first (see the counterexample); the
data must be nonempty, else the `polar.max()` reduction fails before
either check.  In both cases the function produces no partial result. -/
theorem C9_amended :
    (∀ (r : List ℚ) (polar : List (List ℚ)) (s c : String),
      polar.flatten ≠ [] →
      pyLower s ≠ "fwhm" → pyLower s ≠ "1/e" → pyLower s ≠ "1/e^2" →
      estimate_size_polar r polar (.str s) c
        = .error (.valueError "unknown metric, use fwhm, 1/e, or 1/e^2")) ∧
    (∀ (r : List ℚ) (polar : List (List ℚ)) (s c : String),
      polar.flatten ≠ [] →
      (pyLower s = "fwhm" ∨ pyLower s = "1/e" ∨ pyLower s = "1/e^2") →
      pyLower c ≠ "first" → pyLower c ≠ "last" →
      estimate_size_polar r polar (.str s) c
        = .error (.valueError "unknown criteria, use first or last")) := by
  constructor
  · intro r polar s c hfl h1 h2 h3
    obtain ⟨mx, hmax⟩ := polarMax_ok_of_ne_nil polar hfl
    have hhm : hmOf (pyLower s) mx
        = .error (.valueError "unknown metric, use fwhm, 1/e, or 1/e^2") := by
      simp [hmOf, h1, h2, h3]
    simp [estimate_size_polar, pyLowerMetric, hmax, hhm]
  · intro r polar s c hfl hs hc1 hc2
    obtain ⟨mx, hmax⟩ := polarMax_ok_of_ne_nil polar hfl
    obtain ⟨h0, hh0⟩ := hmOf_ok_of_valid (pyLower s) mx hs
    rw [estimate_size_str r polar s c mx h0 hmax hh0]
    simp [esFromMask, hc1, hc2]

/-- Witness for C9: an unknown metric fails with the metric error; a valid
(case-insensitive) metric with an unknown criteria fails with the criteria
error. -/
theorem C9_witness :
    estimate_size_polar [0] [[1]] (.str "bogus") "first"
      = .error (.valueError "unknown metric, use fwhm, 1/e, or 1/e^2") ∧
    estimate_size_polar [0] [[1]] (.str "FWHM") "bogus"
      = .error (.valueError "unknown criteria, use first or last") :=
  ⟨C9_amended.1 [0] [[1]] "bogus" "first" (by simp) (by decide) (by decide) (by decide),
   C9_amended.2 [0] [[1]] "FWHM" "bogus" (by simp) (Or.inl (by decide)) (by decide) (by decide)⟩

end Psf
